import Mathlib

/-!
Shallow embedding of `src/upgrade_me.py` (dependency-fix-bot).

The script chains three stages: upgrade npm dependencies, build the
project, and analyze the build log with a text-generation backend.
External effects (the filesystem, `subprocess.run`, the Gemini API call)
are modelled as explicit inputs:

* the filesystem is a finite map from path to file content (`FS`);
* a `subprocess.run` invocation of the build is a `BuildResult`
  (return code, captured stdout, captured stderr), with `none` standing
  for an exception raised while launching the process;
* the hosted generative backend (`genai`'s `model.generate_content`,
  the path taken since `use_local_model = False` at the bottom of the
  script) is a function `String → Option String`, `none` standing for a
  raised exception.

Python-level primitives used by the script (`str.splitlines`,
`'pat' in s`, `re.search` on the two concrete patterns, list slicing,
`dict.get` / `in` / item assignment on JSON-decoded values) are embedded
faithfully below.
-/

set_option autoImplicit false

/-- ASCII whitespace as matched by Python's regex class `\s`. -/
def isPySpace (c : Char) : Bool :=
  c == ' ' || c == '\t' || c == '\n' || c == '\r' || c == '\x0b' || c == '\x0c'

/-- A character admissible inside the file-reference group `[^\s(]+`:
neither whitespace nor an opening parenthesis. -/
def isRefChar (c : Char) : Bool :=
  !(isPySpace c) && c != '('

/-- `strStartsWith p l` holds when the pattern `p` is an initial segment
of `l` (character-wise). -/
def strStartsWith : List Char → List Char → Bool
  | [], _ => true
  | _ :: _, [] => false
  | p :: ps, c :: cs => p == c && strStartsWith ps cs

/-- Substring containment on character lists: Python's `pat in s`,
checking every start position from the left. -/
def listContainsSub (pat : List Char) : List Char → Bool
  | [] => strStartsWith pat []
  | c :: cs => strStartsWith pat (c :: cs) || listContainsSub pat cs

/-- Python's substring test `pat in s`. -/
def strContains (s pat : String) : Bool :=
  listContainsSub pat.toList s.toList

/-- Line-break characters recognised by Python's `str.splitlines`
(restricted to the one-byte range; the script's data is ASCII). -/
def pyIsLineBreak (c : Char) : Bool :=
  c == '\n' || c == '\r' || c == '\x0b' || c == '\x0c' ||
  c == '\x1c' || c == '\x1d' || c == '\x1e' || c == '\x85'

/-- Worker for `pySplitlines`; `acc` holds the current line reversed. -/
def pySplitlinesAux : List Char → List Char → List String
  | [], acc => if acc.isEmpty then [] else [String.mk acc.reverse]
  | '\r' :: '\n' :: rest, acc => String.mk acc.reverse :: pySplitlinesAux rest []
  | c :: rest, acc =>
    if pyIsLineBreak c then String.mk acc.reverse :: pySplitlinesAux rest []
    else pySplitlinesAux rest (c :: acc)

/-- Python's `str.splitlines()`: split at line breaks (treating `\r\n`
as one break), with no trailing empty line for a trailing break. -/
def pySplitlines (s : String) : List String :=
  pySplitlinesAux s.toList []

/-- `re.search(r'([^\s(]+)\(', error)`, returning group 1: at the
leftmost position where a nonempty run of non-space, non-`(` characters
is immediately followed by `(`, the (maximal) run. -/
def searchFileRefAux : List Char → Option String
  | [] => none
  | c :: cs =>
    if isRefChar c && ((c :: cs).dropWhile isRefChar).head? == some '(' then
      some (String.mk ((c :: cs).takeWhile isRefChar))
    else searchFileRefAux cs

/-- The file-reference extraction of `get_code_snippet_around_error`
(line 183): `none` models `re.search` returning `None`, after which
`match.group(1)` raises. -/
def searchFileRef (error : String) : Option String :=
  searchFileRefAux error.toList

/-- `int` of a nonempty digit string. -/
def digitsToNat (ds : List Char) : Nat :=
  ds.foldl (fun n c => 10 * n + (c.toNat - 48)) 0

/-- `re.search(r'\(([\d]+)', error)` followed by `int(match.group(1))`:
the maximal digit run after the leftmost `(` that is immediately
followed by a digit. -/
def searchLineNumAux : List Char → Option Nat
  | [] => none
  | c :: cs =>
    if c == '(' && !(cs.takeWhile Char.isDigit).isEmpty then
      some (digitsToNat (cs.takeWhile Char.isDigit))
    else searchLineNumAux cs

/-- The line-number extraction of `get_code_snippet_around_error`
(lines 192-193). -/
def searchLineNum (error : String) : Option Nat :=
  searchLineNumAux error.toList

/-- The filesystem, as the finite map path ↦ content over which the
script's `open(path, "r")` calls are interpreted; a path outside the
map raises (models `FileNotFoundError` and kin). -/
structure FS where
  files : List (String × String)

/-- `open(path, "r").read()`: `none` when opening raises. -/
def FS.readFile (fs : FS) (path : String) : Option String :=
  fs.files.lookup path

/-- Python's list slice `xs[a:b]` for nonnegative bounds (clamping is
built into `take`/`drop`). -/
def pySlice {α : Type} (xs : List α) (a b : Nat) : List α :=
  (xs.take b).drop a

/-- The `try`-block of `get_code_snippet_around_error` (lines 180-199):
`none` is a raised exception (no group, unopenable file).  Note
`start_line = max(0, line_number - 5)` coincides with truncated `Nat`
subtraction since the parsed line number is nonnegative. -/
def extractSnippet (fs : FS) (project_dir error : String) : Option String :=
  match searchFileRef error with
  | none => none
  | some file_path =>
    match FS.readFile fs (project_dir ++ "/" ++ file_path) with
    | none => none
    | some file_content =>
      match searchLineNum error with
      | none => none
      | some line_number =>
        some (String.intercalate "\n"
          (pySlice (pySplitlines file_content) (line_number - 5)
            (min (line_number + 5) (pySplitlines file_content).length)))

/-- `get_code_snippet_around_error` (lines 167-203): any exception in
the body is caught and turned into the empty string. -/
def get_code_snippet_around_error (fs : FS) (project_dir error : String) : String :=
  (extractSnippet fs project_dir error).getD ""

/-- The fixed placeholder substituted when the Gemini call raises
(line 156). -/
def geminiPlaceholder : String :=
  "Error generating suggestion from Gemini API."

/-- The f-string prompt of `analyze_build_errors` (lines 118-125),
byte for byte: each continuation line is indented by 16 spaces, and the
snippet line and the instruction line carry a trailing space. -/
def mkPrompt (error code_snippet : String) : String :=
  "\n                **Error:** " ++ error ++
  "\n                **Code Snippet:**\n                ```typescript\n                " ++
  code_snippet ++
  " \n                ```\n                **Instruction:** How can I resolve this error? \n                "

/-- The error lines of a log: the lines for which `'error' in error`
holds (line 115). -/
def errorLines (errors : String) : List String :=
  (pySplitlines errors).filter (fun e => strContains e "error")

/-- The per-error-line body of the analysis loop (lines 116-159) on the
hosted path (`use_local_model = False`, line 255): extract a snippet,
assemble the prompt, dispatch it to the backend; a raised backend call
(`backend prompt = none`) is caught and replaced by the placeholder. -/
def suggestionFor (fs : FS) (backend : String → Option String)
    (project_dir error : String) : String :=
  let code_snippet := get_code_snippet_around_error fs project_dir error
  let prompt := mkPrompt error code_snippet
  match backend prompt with
  | some t => t
  | none => geminiPlaceholder

/-- `analyze_build_errors` (lines 88-165) on the hosted path: read the
log (a raised `open` is caught by the outer handler, returning `[]`),
then one suggestion per error line, in order. -/
def analyze_build_errors (fs : FS) (backend : String → Option String)
    (error_log project_dir : String) : List String :=
  match FS.readFile fs error_log with
  | none => []
  | some errors => (errorLines errors).map (suggestionFor fs backend project_dir)

/-- The outcome of `subprocess.run(["npm", "run", "build"], ...,
capture_output=True)`: return code and the two captured streams. -/
structure BuildResult where
  returncode : Int
  stdout : String
  stderr : String

/-- What `build_project` does: the returned flag and the write to
`{project_dir}/build_errors.log` (path, content), if any. -/
structure BuildEffect where
  needsAnalysis : Bool
  logWrite : Option (String × String)
deriving DecidableEq

/-- `build_project` (lines 48-86); `run = none` models an exception
raised by `subprocess.run`, caught at line 84 and mapped to `False`.
On a nonzero return code only `build_result.stdout` (line 74) is
written to the log. -/
def build_project (project_dir : String) (run : Option BuildResult) : BuildEffect :=
  match run with
  | none => { needsAnalysis := false, logWrite := none }
  | some r =>
    if r.returncode = 0 then { needsAnalysis := false, logWrite := none }
    else { needsAnalysis := true,
           logWrite := some (project_dir ++ "/build_errors.log", r.stdout) }

/-- JSON values as produced by `json.load` (numbers collapsed to `Int`;
no claim touches numeric values). -/
inductive JVal where
  | null : JVal
  | bool : Bool → JVal
  | num : Int → JVal
  | str : String → JVal
  | arr : List JVal → JVal
  | obj : List (String × JVal) → JVal

/-- A JSON object: an insertion-ordered association list, as a Python
`dict` (no duplicate keys arise from `json.load`). -/
abbrev Obj := List (String × JVal)

/-- First-occurrence lookup: Python's `d[k]` / `k in d` on a dict. -/
def lookupField : Obj → String → Option JVal
  | [], _ => none
  | (k0, v) :: rest, k => if k0 = k then some v else lookupField rest k

/-- Python's `d[k] = v` on a dict: replace the value in place if the
key is present, otherwise append the pair at the end. -/
def setField : Obj → String → JVal → Obj
  | [], k, v => [(k, v)]
  | (k0, v0) :: rest, k, v =>
    if k0 = k then (k, v) :: rest else (k0, v0) :: setField rest k v

/-- Python's `d.get(k, dflt)`. -/
def pyDictGet (o : Obj) (k : String) (dflt : JVal) : JVal :=
  match lookupField o k with
  | some v => v
  | none => dflt

/-- Whether a JSON value equals the Python string `n` (only a string
can; used for list membership below). -/
def pyEqStr : JVal → String → Bool
  | JVal.str s, n => s == n
  | _, _ => false

/-- Python's `n in v` for a JSON-decoded value `v`: key containment on
a dict, substring on a string, membership on a list; a `TypeError`
(int, bool, None) is `none`. -/
def pyIn (n : String) : JVal → Option Bool
  | JVal.obj fields => some (lookupField fields n).isSome
  | JVal.str s => some (strContains s n)
  | JVal.arr xs => some (xs.any (fun j => pyEqStr j n))
  | _ => none

/-- The npm outdated report, decoded: package name ↦ its info object
(the script reads `package_info["latest"]` from each). -/
abbrev Report := List (String × Obj)

/-- One iteration of the rewrite loop of `upgrade_dependencies`
(lines 33-35): `if package_name in package_json.get("dependencies", {}):
package_json["dependencies"][package_name] = package_info["latest"]`.
`none` is a raised exception (`TypeError` from `in` or item assignment
on a non-dict, `KeyError` on a missing `"latest"`), caught at line 44. -/
def upgradeStepOne (pj : Obj) (ni : String × Obj) : Option Obj := do
  let c ← pyIn ni.1 (pyDictGet pj "dependencies" (JVal.obj []))
  if c then do
    let latest ← lookupField ni.2 "latest"
    match lookupField pj "dependencies" with
    | some (JVal.obj deps) =>
      pure (setField pj "dependencies" (JVal.obj (setField deps ni.1 latest)))
    | _ => none
  else
    pure pj

/-- The manifest-rewrite step of `upgrade_dependencies` (lines 29-38):
the updated `package_json` that gets written back, given the decoded
manifest and outdated report. -/
def upgradeManifest (m : Obj) (outdated : Report) : Option Obj :=
  outdated.foldlM upgradeStepOne m

/-- One iteration of the loop of `update_package_json` (lines 234-236),
operating on the local `dependencies` value. -/
def updateStepOne (d : JVal) (ni : String × Obj) : Option JVal := do
  let c ← pyIn ni.1 d
  if c then do
    let latest ← lookupField ni.2 "latest"
    match d with
    | JVal.obj fields => pure (JVal.obj (setField fields ni.1 latest))
    | _ => none
  else
    pure d

/-- `update_package_json` (lines 205-246): the updated manifest it
writes back.  Note the final unconditional
`package_json["dependencies"] = dependencies` (line 240). -/
def updatePackageJson (m : Obj) (outdated : Report) : Option Obj := do
  let dependencies := pyDictGet m "dependencies" (JVal.obj [])
  let d ← outdated.foldlM updateStepOne dependencies
  pure (setField m "dependencies" d)

/-! ### Association-list (Python dict) lemmas -/

theorem lookupField_setField_self (o : Obj) (k : String) (v : JVal) :
    lookupField (setField o k v) k = some v := by
  induction o with
  | nil => simp [setField, lookupField]
  | cons p rest ih =>
    obtain ⟨k0, v0⟩ := p
    by_cases h : k0 = k
    · simp [setField, h, lookupField]
    · simp [setField, h, lookupField, ih]

theorem lookupField_setField_ne (o : Obj) (k k' : String) (v : JVal) (h : k' ≠ k) :
    lookupField (setField o k v) k' = lookupField o k' := by
  induction o with
  | nil => simp [setField, lookupField, Ne.symm h]
  | cons p rest ih =>
    obtain ⟨k0, v0⟩ := p
    by_cases hk : k0 = k
    · subst hk
      simp [setField, lookupField, Ne.symm h]
    · simp [setField, hk, lookupField, ih]

theorem setField_setField (o : Obj) (k : String) (v w : JVal) :
    setField (setField o k v) k w = setField o k w := by
  induction o with
  | nil => simp [setField]
  | cons p rest ih =>
    obtain ⟨k0, v0⟩ := p
    by_cases hk : k0 = k
    · simp [setField, hk]
    · simp [setField, hk, ih]

theorem setField_of_lookup (o : Obj) (k : String) (v : JVal)
    (h : lookupField o k = some v) : setField o k v = o := by
  induction o with
  | nil => simp [lookupField] at h
  | cons p rest ih =>
    obtain ⟨k0, v0⟩ := p
    by_cases hk : k0 = k
    · subst hk
      simp [lookupField] at h
      simp [setField, h]
    · simp [lookupField, hk] at h
      simp [setField, hk, ih h]

theorem lookupField_isSome_iff (o : Obj) (k : String) :
    (lookupField o k).isSome ↔ k ∈ o.map Prod.fst := by
  induction o with
  | nil => simp [lookupField]
  | cons p rest ih =>
    obtain ⟨k0, v0⟩ := p
    by_cases hk : k0 = k
    · simp [lookupField, hk]
    · simp [lookupField, hk, ih, Ne.symm hk]

theorem keys_setField (o : Obj) (k : String) (v : JVal)
    (h : (lookupField o k).isSome) :
    (setField o k v).map Prod.fst = o.map Prod.fst := by
  induction o with
  | nil => simp [lookupField] at h
  | cons p rest ih =>
    obtain ⟨k0, v0⟩ := p
    by_cases hk : k0 = k
    · simp [setField, hk]
    · simp [lookupField, hk] at h
      simp [setField, hk, ih h]

theorem setField_decomp (o : Obj) (k : String) (v0 : JVal)
    (h : lookupField o k = some v0) :
    ∃ pre post : Obj, (∀ p ∈ pre, p.1 ≠ k) ∧ o = pre ++ (k, v0) :: post ∧
      ∀ w, setField o k w = pre ++ (k, w) :: post := by
  induction o with
  | nil => simp [lookupField] at h
  | cons p rest ih =>
    obtain ⟨k0, w0⟩ := p
    by_cases hk : k0 = k
    · subst hk
      simp [lookupField] at h
      subst h
      exact ⟨[], rest, by simp, rfl, fun w => by simp [setField]⟩
    · simp [lookupField, hk] at h
      obtain ⟨pre, post, hpre, heq, hset⟩ := ih h
      refine ⟨(k0, w0) :: pre, post, ?_, by simp [heq], fun w => by simp [setField, hk, hset w]⟩
      intro p hp
      rcases List.mem_cons.mp hp with hp | hp
      · simp [hp, hk]
      · exact hpre p hp

/-! ### The rewrite loop in explicit form -/

/-- The effect of one successful loop iteration on the dependencies
object: set the key to its reported latest version when present. -/
def applyOne (deps : Obj) (ni : String × Obj) : Obj :=
  if (lookupField deps ni.1).isSome then
    match lookupField ni.2 "latest" with
    | some v => setField deps ni.1 v
    | none => deps
  else deps

/-- The explicit result of running the rewrite loop over a report. -/
def applyOutdated : Obj → Report → Obj
  | deps, [] => deps
  | deps, ni :: rest => applyOutdated (applyOne deps ni) rest

theorem keys_applyOne (deps : Obj) (ni : String × Obj) :
    (applyOne deps ni).map Prod.fst = deps.map Prod.fst := by
  unfold applyOne
  by_cases h : (lookupField deps ni.1).isSome
  · simp only [h, if_true]
    cases hl : lookupField ni.2 "latest"
    · rfl
    · exact keys_setField _ _ _ h
  · simp [h]

theorem keys_applyOutdated (r : Report) :
    ∀ deps : Obj, (applyOutdated deps r).map Prod.fst = deps.map Prod.fst := by
  induction r with
  | nil => intro deps; rfl
  | cons ni rest ih =>
    intro deps
    rw [applyOutdated, ih, keys_applyOne]

theorem lookupField_applyOne_ne (deps : Obj) (ni : String × Obj) (n : String)
    (h : ni.1 ≠ n) : lookupField (applyOne deps ni) n = lookupField deps n := by
  unfold applyOne
  by_cases hs : (lookupField deps ni.1).isSome
  · simp only [hs, if_true]
    cases hl : lookupField ni.2 "latest"
    · rfl
    · exact lookupField_setField_ne _ _ _ _ (Ne.symm h)
  · simp [hs]

theorem lookupField_applyOutdated_not_mem (r : Report) :
    ∀ (deps : Obj) (n : String), n ∉ r.map Prod.fst →
    lookupField (applyOutdated deps r) n = lookupField deps n := by
  induction r with
  | nil => intro deps n _; rfl
  | cons ni rest ih =>
    intro deps n hn
    simp only [List.map_cons, List.mem_cons] at hn
    push_neg at hn
    rw [applyOutdated, ih _ _ hn.2, lookupField_applyOne_ne _ _ _ (Ne.symm hn.1)]

theorem lookupField_applyOutdated_none (r : Report) (deps : Obj) (n : String)
    (h : lookupField deps n = none) :
    lookupField (applyOutdated deps r) n = none := by
  have h2 := lookupField_isSome_iff (applyOutdated deps r) n
  rw [keys_applyOutdated, ← lookupField_isSome_iff, h] at h2
  have h3 : ¬ (lookupField (applyOutdated deps r) n).isSome := by
    rw [h2]; simp
  exact Option.not_isSome_iff_eq_none.mp h3

theorem lookupField_applyOutdated_mem (r : Report) :
    ∀ (deps : Obj) (n : String) (info : Obj) (v : JVal),
    (r.map Prod.fst).Nodup → (n, info) ∈ r → lookupField info "latest" = some v →
    (lookupField deps n).isSome →
    lookupField (applyOutdated deps r) n = some v := by
  induction r with
  | nil => intro deps n info v _ hmem; simp at hmem
  | cons ni rest ih =>
    intro deps n info v hnd hmem hlat hs
    rw [List.map_cons, List.nodup_cons] at hnd
    rcases List.mem_cons.mp hmem with heq | hmem2
    · subst heq
      rw [applyOutdated]
      have hstep : applyOne deps (n, info) = setField deps n v := by
        unfold applyOne; simp [hs, hlat]
      rw [hstep]
      have hnotin : n ∉ rest.map Prod.fst := hnd.1
      rw [lookupField_applyOutdated_not_mem rest _ _ hnotin]
      exact lookupField_setField_self _ _ _
    · have hne : ni.1 ≠ n := by
        intro hcontra
        exact hnd.1 (hcontra ▸ (List.mem_map.mpr ⟨(n, info), hmem2, rfl⟩))
      rw [applyOutdated]
      exact ih _ _ _ _ hnd.2 hmem2 hlat
        (by rwa [lookupField_applyOne_ne _ _ _ hne])

/-! ### The two manifest-update loops, related to the explicit form -/

theorem upgradeStepOne_obj (m deps : Obj) (ni : String × Obj)
    (h : lookupField m "dependencies" = some (JVal.obj deps)) :
    upgradeStepOne m ni
      = (updateStepOne (JVal.obj deps) ni).bind
          (fun d => some (setField m "dependencies" d)) := by
  unfold upgradeStepOne updateStepOne
  simp only [pyDictGet, h, pyIn]
  cases hs : (lookupField deps ni.1).isSome
  · simp [Option.bind, setField_of_lookup _ _ _ h]
  · cases hl : lookupField ni.2 "latest" <;> simp [Option.bind, h, hl]

theorem updateStepOne_obj_shape (deps : Obj) (ni : String × Obj) (d : JVal)
    (h : updateStepOne (JVal.obj deps) ni = some d) :
    ∃ deps2 : Obj, d = JVal.obj deps2 := by
  unfold updateStepOne at h
  simp only [pyIn] at h
  cases hs : (lookupField deps ni.1).isSome <;> rw [hs] at h
  · simp at h
    exact ⟨deps, h.symm⟩
  · cases hl : lookupField ni.2 "latest" <;> rw [hl] at h <;> simp at h
    exact ⟨setField deps ni.1 _, h.symm⟩

theorem upgradeManifest_eq_updateLoop (r : Report) :
    ∀ (m deps : Obj), lookupField m "dependencies" = some (JVal.obj deps) →
    upgradeManifest m r
      = (List.foldlM updateStepOne (JVal.obj deps) r).bind
          (fun d => some (setField m "dependencies" d)) := by
  induction r with
  | nil =>
    intro m deps h
    simp [upgradeManifest, setField_of_lookup _ _ _ h]
  | cons ni rest ih =>
    intro m deps h
    rw [upgradeManifest, List.foldlM_cons, List.foldlM_cons,
      upgradeStepOne_obj m deps ni h]
    cases hstep : updateStepOne (JVal.obj deps) ni with
    | none => simp
    | some d =>
      obtain ⟨deps2, rfl⟩ := updateStepOne_obj_shape deps ni d hstep
      have h2 : lookupField (setField m "dependencies" (JVal.obj deps2)) "dependencies"
          = some (JVal.obj deps2) := lookupField_setField_self _ _ _
      have ih2 := ih (setField m "dependencies" (JVal.obj deps2)) deps2 h2
      rw [upgradeManifest] at ih2
      simp only [Option.bind_eq_bind, Option.some_bind]
      rw [ih2]
      cases List.foldlM updateStepOne (JVal.obj deps2) rest <;>
        simp [setField_setField]

theorem updateLoop_obj (r : Report) :
    ∀ deps : Obj, (∀ ni ∈ r, (lookupField ni.2 "latest").isSome) →
    List.foldlM updateStepOne (JVal.obj deps) r
      = some (JVal.obj (applyOutdated deps r)) := by
  induction r with
  | nil => intro deps _; simp [applyOutdated]
  | cons ni rest ih =>
    intro deps hlat
    rw [List.foldlM_cons, applyOutdated]
    have hstep : updateStepOne (JVal.obj deps) ni = some (JVal.obj (applyOne deps ni)) := by
      unfold updateStepOne applyOne
      cases hs : (lookupField deps ni.1).isSome
      · simp [pyIn, hs]
      · obtain ⟨v, hv⟩ := Option.isSome_iff_exists.mp (hlat ni (List.mem_cons_self _ _))
        simp [pyIn, hs, hv]
    rw [hstep]
    simpa using ih (applyOne deps ni) (fun x hx => hlat x (List.mem_cons_of_mem _ hx))

/-- The manifest-rewrite step of `upgrade_dependencies`, in closed
form, for a manifest whose `"dependencies"` field is an object and a
report matching the npm schema (every entry carries `"latest"`). -/
theorem upgradeManifest_explicit (m deps : Obj) (r : Report)
    (h : lookupField m "dependencies" = some (JVal.obj deps))
    (hlat : ∀ ni ∈ r, (lookupField ni.2 "latest").isSome) :
    upgradeManifest m r
      = some (setField m "dependencies" (JVal.obj (applyOutdated deps r))) := by
  rw [upgradeManifest_eq_updateLoop r m deps h, updateLoop_obj r deps hlat]
  rfl

theorem updatePackageJson_eq_updateLoop (m deps : Obj) (r : Report)
    (h : lookupField m "dependencies" = some (JVal.obj deps)) :
    updatePackageJson m r
      = (List.foldlM updateStepOne (JVal.obj deps) r).bind
          (fun d => some (setField m "dependencies" d)) := by
  unfold updatePackageJson
  simp only [pyDictGet, h]
  rfl

/-! ### Substring characterization -/

theorem stringEqOfData {a b : String} (h : a.data = b.data) : a = b := by
  cases a; cases b; exact congrArg String.mk h

theorem strStartsWith_iff (p : List Char) :
    ∀ l : List Char, strStartsWith p l = true ↔ ∃ v, l = p ++ v := by
  induction p with
  | nil => intro l; simp [strStartsWith]
  | cons c cs ih =>
    intro l
    cases l with
    | nil => simp [strStartsWith]
    | cons d ds =>
      rw [strStartsWith, Bool.and_eq_true, beq_iff_eq, ih ds]
      constructor
      · rintro ⟨rfl, v, rfl⟩
        exact ⟨v, rfl⟩
      · rintro ⟨v, hv⟩
        injection hv with h1 h2
        exact ⟨h1.symm, v, h2⟩

theorem listContainsSub_iff (p : List Char) :
    ∀ l : List Char, listContainsSub p l = true ↔ ∃ u v, l = u ++ p ++ v := by
  intro l
  induction l with
  | nil =>
    rw [listContainsSub, strStartsWith_iff]
    constructor
    · rintro ⟨v, hv⟩
      exact ⟨[], v, by simpa using hv⟩
    · rintro ⟨u, v, huv⟩
      obtain ⟨hup, hv⟩ := List.append_eq_nil.mp huv.symm
      obtain ⟨hu, hp⟩ := List.append_eq_nil.mp hup
      exact ⟨v, by simp [hp, hv]⟩
  | cons c cs ih =>
    rw [listContainsSub, Bool.or_eq_true]
    constructor
    · intro h
      rcases h with h1 | h2
      · obtain ⟨v, hv⟩ := (strStartsWith_iff p _).mp h1
        exact ⟨[], v, by simpa using hv⟩
      · obtain ⟨u, v, huv⟩ := ih.mp h2
        exact ⟨c :: u, v, by simp [huv]⟩
    · rintro ⟨u, v, huv⟩
      cases u with
      | nil =>
        exact Or.inl ((strStartsWith_iff p _).mpr ⟨v, by simpa using huv⟩)
      | cons u0 us =>
        simp only [List.cons_append, List.cons.injEq] at huv
        exact Or.inr (ih.mpr ⟨us, v, huv.2⟩)

/-- Python's `pat in s` holds exactly when `s` decomposes as
`a ++ pat ++ b`. -/
theorem strContains_iff (s pat : String) :
    strContains s pat = true ↔ ∃ a b : String, s = a ++ pat ++ b := by
  rw [strContains, listContainsSub_iff]
  constructor
  · rintro ⟨u, v, huv⟩
    refine ⟨String.mk u, String.mk v, stringEqOfData ?_⟩
    simpa [String.data_append] using huv
  · rintro ⟨a, b, rfl⟩
    exact ⟨a.data, b.data, by simp [String.data_append]⟩

/-! ### Snippet-extraction lemmas -/

/-- The context window of a snippet: the lines of the file from index
`max(0, l - 5)` (truncated `Nat` subtraction) up to but excluding
`min(l + 5, totalLines)`, written in drop/take form. -/
def snippetWindow (content : String) (l : Nat) : List String :=
  ((pySplitlines content).drop (l - 5)).take
    (min (l + 5) (pySplitlines content).length - (l - 5))

theorem snippetWindow_length (content : String) (l : Nat) :
    (snippetWindow content l).length
      = min (l + 5) (pySplitlines content).length - (l - 5) := by
  unfold snippetWindow
  simp only [List.length_take, List.length_drop]
  omega

theorem extractSnippet_eq_window (fs : FS) (pd err fp content : String) (l : Nat)
    (hfp : searchFileRef err = some fp)
    (hread : FS.readFile fs (pd ++ "/" ++ fp) = some content)
    (hl : searchLineNum err = some l) :
    extractSnippet fs pd err
      = some (String.intercalate "\n" (snippetWindow content l)) := by
  unfold extractSnippet
  simp only [hfp, hread, hl]
  rw [pySlice, List.drop_take, snippetWindow]

theorem extractSnippet_none_of_fileRef_none (fs : FS) (pd err : String)
    (h : searchFileRef err = none) : extractSnippet fs pd err = none := by
  unfold extractSnippet
  rw [h]

theorem extractSnippet_none_of_read_none (fs : FS) (pd err fp : String)
    (hfp : searchFileRef err = some fp)
    (h : FS.readFile fs (pd ++ "/" ++ fp) = none) :
    extractSnippet fs pd err = none := by
  unfold extractSnippet
  simp only [hfp, h]

theorem extractSnippet_none_of_lineNum_none (fs : FS) (pd err : String)
    (h : searchLineNum err = none) : extractSnippet fs pd err = none := by
  unfold extractSnippet
  cases hfp : searchFileRef err with
  | none => rfl
  | some fp =>
    cases hread : FS.readFile fs (pd ++ "/" ++ fp) with
    | none => simp only [hread]
    | some content => simp only [hread, h]

theorem searchFileRefAux_none_of_no_paren :
    ∀ l : List Char, '(' ∉ l → searchFileRefAux l = none := by
  intro l
  induction l with
  | nil => intro _; rfl
  | cons c cs ih =>
    intro h
    have hcs : '(' ∉ cs := fun hm => h (List.mem_cons_of_mem _ hm)
    rw [searchFileRefAux]
    have hcond : (((c :: cs).dropWhile isRefChar).head? == some '(') = false := by
      cases hd : ((c :: cs).dropWhile isRefChar).head? with
      | none => rfl
      | some d =>
        have hdmem : d ∈ (c :: cs).dropWhile isRefChar := by
          cases hdw : (c :: cs).dropWhile isRefChar with
          | nil => rw [hdw] at hd; simp at hd
          | cons e es =>
            rw [hdw] at hd
            simp only [List.head?_cons, Option.some.injEq] at hd
            rw [hd]
            exact List.mem_cons_self _ _
        have : d ∈ c :: cs := (List.dropWhile_sublist _).mem hdmem
        have hd_ne : d ≠ '(' := fun hdp => h (hdp ▸ this)
        simpa using hd_ne
    rw [hcond, Bool.and_false, if_neg (by simp)]
    exact ih hcs

theorem searchFileRef_none_of_no_paren (err : String)
    (h : '(' ∉ err.data) : searchFileRef err = none :=
  searchFileRefAux_none_of_no_paren err.toList h

/-! ### Analyzer lemmas -/

theorem analyze_build_errors_eq (fs : FS) (backend : String → Option String)
    (error_log project_dir content : String)
    (h : FS.readFile fs error_log = some content) :
    analyze_build_errors fs backend error_log project_dir
      = (errorLines content).map (suggestionFor fs backend project_dir) := by
  unfold analyze_build_errors
  rw [h]

theorem mkPrompt_decomp (error code_snippet : String) :
    mkPrompt error code_snippet
      = "\n                **Error:** " ++ error ++
        ("\n                **Code Snippet:**\n                ```typescript\n                " ++
          code_snippet ++
          " \n                ```\n                **Instruction:** How can I resolve this error? \n                ") := by
  rw [mkPrompt]
  simp [String.append_assoc]

/-! ### Claim theorems -/

/-- C1: for every source file that exists and every reported line
number, the snippet extracted by `get_code_snippet_around_error` is the
file's lines from index `max(0, line - 5)` up to but excluding
`min(line + 5, totalLines)` joined by newlines; its length is at most
11 lines and exactly `min(line + 5, totalLines) - max(0, line - 5)`
(over `Nat`, where `max(0, line - 5)` is truncated subtraction);
extraction never raises whenever the file exists and a line number is
parsed (in particular at line 0 or past the end); and for the error
line `src/app.ts(10,5): error TS2345: bad type` over a file of at
least 15 lines the window is exactly lines 5 through 14 (0-indexed). -/
theorem C1_snippet_window (fs : FS) (pd err fp content : String) (l : Nat)
    (hfp : searchFileRef err = some fp)
    (hread : FS.readFile fs (pd ++ "/" ++ fp) = some content)
    (hl : searchLineNum err = some l) :
    extractSnippet fs pd err
      = some (String.intercalate "\n" (snippetWindow content l)) ∧
    get_code_snippet_around_error fs pd err
      = String.intercalate "\n" (snippetWindow content l) ∧
    (snippetWindow content l).length
      = min (l + 5) (pySplitlines content).length - (l - 5) ∧
    (snippetWindow content l).length ≤ 11 ∧
    (err = "src/app.ts(10,5): error TS2345: bad type" →
      15 ≤ (pySplitlines content).length →
      snippetWindow content l = ((pySplitlines content).drop 5).take 10) := by
  have hx := extractSnippet_eq_window fs pd err fp content l hfp hread hl
  refine ⟨hx, ?_, snippetWindow_length content l, ?_, ?_⟩
  · rw [get_code_snippet_around_error, hx]
    rfl
  · rw [snippetWindow_length]
    omega
  · intro herr h15
    subst herr
    have h10 : searchLineNum "src/app.ts(10,5): error TS2345: bad type" = some 10 := by
      decide
    rw [hl] at h10
    injection h10 with h10
    subst h10
    rw [snippetWindow, show (10 : Nat) - 5 = 5 from rfl,
      show (10 : Nat) + 5 = 15 from rfl, min_eq_left h15]

/-- C1 witness: a concrete 16-line file and the concrete error line;
the returned snippet is lines 5 through 14. -/
theorem C1_witness :
    get_code_snippet_around_error
        ⟨[("proj/src/app.ts",
           "l0\nl1\nl2\nl3\nl4\nl5\nl6\nl7\nl8\nl9\nl10\nl11\nl12\nl13\nl14\nl15\n")]⟩
        "proj" "src/app.ts(10,5): error TS2345: bad type"
      = "l5\nl6\nl7\nl8\nl9\nl10\nl11\nl12\nl13\nl14" := by
  have h := C1_snippet_window
    ⟨[("proj/src/app.ts",
       "l0\nl1\nl2\nl3\nl4\nl5\nl6\nl7\nl8\nl9\nl10\nl11\nl12\nl13\nl14\nl15\n")]⟩
    "proj" "src/app.ts(10,5): error TS2345: bad type" "src/app.ts"
    "l0\nl1\nl2\nl3\nl4\nl5\nl6\nl7\nl8\nl9\nl10\nl11\nl12\nl13\nl14\nl15\n" 10
    (by decide) (by rfl) (by decide)
  rw [h.2.1]
  rfl

/-- C2: for every build log, the analyzer produces exactly one
suggestion per error line, in the original order of the lines (the
result is the in-order map over the error lines); with an echo backend
each suggestion is the dispatched prompt, which contains the error line
as a substring; and when snippet extraction fails the snippet is the
empty string while the prompt is still sent. -/
theorem C2_one_suggestion_per_error_line (fs : FS)
    (backend : String → Option String) (log pd content : String)
    (hread : FS.readFile fs log = some content)
    (hecho : ∀ p, backend p = some p) :
    analyze_build_errors fs backend log pd
      = (errorLines content).map
          (fun e => mkPrompt e (get_code_snippet_around_error fs pd e)) ∧
    (analyze_build_errors fs backend log pd).length = (errorLines content).length ∧
    (∀ e s : String, strContains (mkPrompt e s) e = true) ∧
    (∀ e, extractSnippet fs pd e = none →
      get_code_snippet_around_error fs pd e = "") := by
  have hfun : ∀ e, suggestionFor fs backend pd e
      = mkPrompt e (get_code_snippet_around_error fs pd e) := by
    intro e
    simp only [suggestionFor, hecho]
  have h1 : analyze_build_errors fs backend log pd
      = (errorLines content).map
          (fun e => mkPrompt e (get_code_snippet_around_error fs pd e)) := by
    rw [analyze_build_errors_eq fs backend log pd content hread]
    exact List.map_congr_left (fun e _ => hfun e)
  refine ⟨h1, by rw [h1, List.length_map], ?_, ?_⟩
  · intro e s
    refine (strContains_iff _ _).mpr
      ⟨"\n                **Error:** ",
       "\n                **Code Snippet:**\n                ```typescript\n                " ++
         s ++
         " \n                ```\n                **Instruction:** How can I resolve this error? \n                ",
       ?_⟩
    rw [mkPrompt]
    simp [String.append_assoc]
  · intro e hnone
    rw [get_code_snippet_around_error, hnone]
    rfl

/-- C2 witness: a concrete one-error-line log with the echo backend;
the single suggestion is the assembled prompt. -/
theorem C2_witness :
    analyze_build_errors ⟨[("proj/build_errors.log",
        "src/app.ts(3,1): error TS1: x\nok line\n")]⟩
      (fun p => some p) "proj/build_errors.log" "proj"
      = [mkPrompt "src/app.ts(3,1): error TS1: x"
          (get_code_snippet_around_error
            ⟨[("proj/build_errors.log", "src/app.ts(3,1): error TS1: x\nok line\n")]⟩
            "proj" "src/app.ts(3,1): error TS1: x")] := by
  have h := (C2_one_suggestion_per_error_line
    ⟨[("proj/build_errors.log", "src/app.ts(3,1): error TS1: x\nok line\n")]⟩
    (fun p => some p) "proj/build_errors.log" "proj"
    "src/app.ts(3,1): error TS1: x\nok line\n" rfl (fun p => rfl)).1
  rw [h]
  rfl

/-- C3: a log line is treated as an error line exactly when it contains
the literal substring `error` (case-sensitive): the analyzer is the map
over the filter by that test, the test is equivalent to a substring
decomposition, and the capitalised `Error` does not match. -/
theorem C3_error_line_selection (fs : FS) (backend : String → Option String)
    (log pd content : String) (hread : FS.readFile fs log = some content) :
    analyze_build_errors fs backend log pd
      = ((pySplitlines content).filter (fun e => strContains e "error")).map
          (suggestionFor fs backend pd) ∧
    (∀ e : String, strContains e "error" = true ↔ ∃ a b : String, e = a ++ "error" ++ b) ∧
    strContains "Error: bad" "error" = false :=
  ⟨analyze_build_errors_eq fs backend log pd content hread,
   fun e => strContains_iff e "error", by decide⟩

/-- C3 witness: on a concrete log only the line containing `error`
yields a suggestion. -/
theorem C3_witness :
    analyze_build_errors ⟨[("proj/build_errors.log",
        "Error: capitalised\nwarning: none\nreal error line\n")]⟩
      (fun _ => some "ok") "proj/build_errors.log" "proj" = ["ok"] := by
  have h := (C3_error_line_selection
    ⟨[("proj/build_errors.log", "Error: capitalised\nwarning: none\nreal error line\n")]⟩
    (fun _ => some "ok") "proj/build_errors.log" "proj"
    "Error: capitalised\nwarning: none\nreal error line\n" rfl).1
  rw [h]
  rfl

/-- C4: the upgrade step updates exactly the keys common to the
manifest's `dependencies` object and the outdated report — each such
dependency is set to the report's `latest` value, every other
dependency and every other manifest field (and their order) is left
unchanged — and the concrete left-pad scenario rewrites `^1.0.0` to
`1.3.0`. -/
theorem C4_upgrade_rewrites_intersection (m deps : Obj) (r : Report)
    (hdeps : lookupField m "dependencies" = some (JVal.obj deps))
    (hlat : ∀ ni ∈ r, (lookupField ni.2 "latest").isSome)
    (hnodup : (r.map Prod.fst).Nodup) :
    ∃ deps2 : Obj,
      upgradeManifest m r = some (setField m "dependencies" (JVal.obj deps2)) ∧
      deps2.map Prod.fst = deps.map Prod.fst ∧
      (∀ n info v, (n, info) ∈ r → lookupField info "latest" = some v →
        (lookupField deps n).isSome → lookupField deps2 n = some v) ∧
      (∀ n, n ∉ r.map Prod.fst → lookupField deps2 n = lookupField deps n) ∧
      (∀ n, lookupField deps n = none → lookupField deps2 n = none) ∧
      (∃ pre post : Obj, m = pre ++ ("dependencies", JVal.obj deps) :: post ∧
        setField m "dependencies" (JVal.obj deps2)
          = pre ++ ("dependencies", JVal.obj deps2) :: post) ∧
      upgradeManifest
          [("dependencies", JVal.obj [("left-pad", JVal.str "^1.0.0")])]
          [("left-pad", [("latest", JVal.str "1.3.0")])]
        = some [("dependencies", JVal.obj [("left-pad", JVal.str "1.3.0")])] := by
  refine ⟨applyOutdated deps r,
    upgradeManifest_explicit m deps r hdeps hlat,
    keys_applyOutdated r deps,
    fun n info v hmem hl2 hs =>
      lookupField_applyOutdated_mem r deps n info v hnodup hmem hl2 hs,
    fun n hn => lookupField_applyOutdated_not_mem r deps n hn,
    fun n hn => lookupField_applyOutdated_none r deps n hn,
    ?_, by rfl⟩
  obtain ⟨pre, post, hpre, heq, hset⟩ :=
    setField_decomp m "dependencies" (JVal.obj deps) hdeps
  exact ⟨pre, post, heq, hset _⟩

/-- C4 witness: the left-pad scenario, with all hypotheses discharged
concretely. -/
theorem C4_witness :
    upgradeManifest [("dependencies", JVal.obj [("left-pad", JVal.str "^1.0.0")])]
        [("left-pad", [("latest", JVal.str "1.3.0")])]
      = some [("dependencies", JVal.obj [("left-pad", JVal.str "1.3.0")])] := by
  obtain ⟨deps2, -, -, -, -, -, -, hconc⟩ :=
    C4_upgrade_rewrites_intersection
      [("dependencies", JVal.obj [("left-pad", JVal.str "^1.0.0")])]
      [("left-pad", JVal.str "^1.0.0")]
      [("left-pad", [("latest", JVal.str "1.3.0")])]
      (by rfl) (by decide) (by decide)
  exact hconc

/-- C5: snippet extraction is total — on an error line whose text has
no parenthesis group, a referenced file that cannot be opened, or no
parseable line number, `get_code_snippet_around_error` returns the
empty string instead of raising. -/
theorem C5_extraction_total (fs : FS) (pd err : String) :
    (searchFileRef err = none → get_code_snippet_around_error fs pd err = "") ∧
    (∀ fp, searchFileRef err = some fp →
      FS.readFile fs (pd ++ "/" ++ fp) = none →
      get_code_snippet_around_error fs pd err = "") ∧
    (searchLineNum err = none → get_code_snippet_around_error fs pd err = "") ∧
    ('(' ∉ err.data → searchFileRef err = none ∧
      get_code_snippet_around_error fs pd err = "") := by
  have hres : ∀ h : extractSnippet fs pd err = none,
      get_code_snippet_around_error fs pd err = "" := by
    intro h
    rw [get_code_snippet_around_error, h]
    rfl
  refine ⟨fun h => hres (extractSnippet_none_of_fileRef_none fs pd err h),
    fun fp hfp h => hres (extractSnippet_none_of_read_none fs pd err fp hfp h),
    fun h => hres (extractSnippet_none_of_lineNum_none fs pd err h),
    fun h => ?_⟩
  have h2 := searchFileRef_none_of_no_paren err h
  exact ⟨h2, hres (extractSnippet_none_of_fileRef_none fs pd err h2)⟩

/-- C5 witness: an error line with no parenthesis group yields the
empty snippet on an empty filesystem. -/
theorem C5_witness :
    get_code_snippet_around_error ⟨[]⟩ "proj" "plain error without location" = "" :=
  ((C5_extraction_total ⟨[]⟩ "proj" "plain error without location").2.2.2
    (by decide)).2

/-- C6: when the build log cannot be opened, `analyze_build_errors`
returns the empty suggestion list (the outer handler catches the raised
`open`), and in the embedding the function is total — no exception
escapes. -/
theorem C6_missing_log (fs : FS) (backend : String → Option String)
    (log pd : String) (h : FS.readFile fs log = none) :
    analyze_build_errors fs backend log pd = [] := by
  unfold analyze_build_errors
  rw [h]

/-- C6 witness: an empty filesystem — the log file is absent — gives no
suggestions. -/
theorem C6_witness :
    analyze_build_errors ⟨[]⟩ (fun _ => none) "proj/build_errors.log" "proj" = [] :=
  C6_missing_log ⟨[]⟩ (fun _ => none) "proj/build_errors.log" "proj" rfl

/-- C7: with the hosted backend raising on every call, every error line
still yields the fixed placeholder string and the loop runs to the end
of the error lines (one placeholder per error line, none skipped). -/
theorem C7_hosted_failure_placeholder (fs : FS) (log pd content : String)
    (hread : FS.readFile fs log = some content) :
    analyze_build_errors fs (fun _ => none) log pd
      = (errorLines content).map (fun _ => geminiPlaceholder) ∧
    (analyze_build_errors fs (fun _ => none) log pd).length
      = (errorLines content).length ∧
    ∀ s ∈ analyze_build_errors fs (fun _ => none) log pd, s = geminiPlaceholder := by
  have h1 : analyze_build_errors fs (fun _ => none) log pd
      = (errorLines content).map (fun _ => geminiPlaceholder) := by
    rw [analyze_build_errors_eq fs (fun _ => none) log pd content hread]
    exact List.map_congr_left (fun e _ => by simp only [suggestionFor])
  refine ⟨h1, by rw [h1, List.length_map], ?_⟩
  intro s hs
  rw [h1] at hs
  obtain ⟨e, -, heq⟩ := List.mem_map.mp hs
  exact heq.symm

/-- C7 witness: a two-error-line log with an always-raising backend
produces two placeholders. -/
theorem C7_witness :
    analyze_build_errors ⟨[("proj/build_errors.log",
        "a.ts(1,1): error one\nfine\nb.ts(2,2): error two\n")]⟩
      (fun _ => none) "proj/build_errors.log" "proj"
      = [geminiPlaceholder, geminiPlaceholder] := by
  have h := (C7_hosted_failure_placeholder
    ⟨[("proj/build_errors.log", "a.ts(1,1): error one\nfine\nb.ts(2,2): error two\n")]⟩
    "proj/build_errors.log" "proj"
    "a.ts(1,1): error one\nfine\nb.ts(2,2): error two\n" rfl).1
  rw [h]
  rfl

/-- C8: `build_project` returns `true` exactly when the build's exit
status is nonzero; a successful build returns `false`, and an exception
during execution produces the same result as a successful build (no
analysis, nothing written). -/
theorem C8_build_flag :
    (∀ (pd : String) (r : BuildResult),
      (build_project pd (some r)).needsAnalysis = true ↔ r.returncode ≠ 0) ∧
    (∀ pd : String,
      build_project pd none = { needsAnalysis := false, logWrite := none }) ∧
    (∀ (pd out err : String),
      build_project pd none = build_project pd (some ⟨0, out, err⟩)) := by
  refine ⟨fun pd r => ?_, fun pd => rfl, fun pd out err => rfl⟩
  unfold build_project
  by_cases h : r.returncode = 0
  · simp [h]
  · simp [h]

/-- C9 counterexample: on a failing build with stdout `"out"` and
stderr `"err"`, exactly `"out"` is written to the log.  The written
text does not contain the stderr text at all and is strictly shorter
than the two streams together, so it is not the combined
stdout/stderr output. -/
theorem C9_counterexample :
    (build_project "proj" (some ⟨1, "out", "err"⟩)).logWrite
        = some ("proj/build_errors.log", "out") ∧
    strContains "out" "err" = false ∧
    ("out" : String).length < ("out" : String).length + ("err" : String).length :=
  ⟨by rfl, by decide, by decide⟩

/-- C9 amended: when the exit status is nonzero, the standard-output
stream alone (`build_result.stdout`; stderr is discarded) is written
verbatim to `build_errors.log` under the project directory,
overwriting it. -/
theorem C9_stdout_written (pd : String) (r : BuildResult)
    (h : r.returncode ≠ 0) :
    (build_project pd (some r)).logWrite
      = some (pd ++ "/build_errors.log", r.stdout) := by
  unfold build_project
  simp only [if_neg h]

/-- C9 witness: a concrete failing build writes its stdout to the fixed
log path. -/
theorem C9_witness :
    (build_project "proj" (some ⟨2, "boom", ""⟩)).logWrite
      = some ("proj/build_errors.log", "boom") :=
  C9_stdout_written "proj" ⟨2, "boom", ""⟩ (by decide)

/-- C10 counterexample: on a manifest without a `dependencies` key the
two functions disagree — `update_package_json` adds an empty
`dependencies` object while the rewrite step of `upgrade_dependencies`
leaves the manifest unchanged. -/
theorem C10_counterexample :
    updatePackageJson [] [] = some [("dependencies", JVal.obj [])] ∧
    upgradeManifest [] [] = some [] ∧
    updatePackageJson [] [] ≠ upgradeManifest [] [] := by
  refine ⟨by rfl, by rfl, fun h => ?_⟩
  rw [show updatePackageJson [] [] = some [("dependencies", JVal.obj [])] from rfl,
    show upgradeManifest [] [] = some [] from rfl] at h
  injection h with h2
  exact (List.cons_ne_nil _ _) h2

/-- C10 amended: whenever the manifest's `dependencies` key is present
(as an object), `update_package_json` computes exactly the same updated
manifest as the manifest-rewrite step of `upgrade_dependencies`, for
every outdated report. -/
theorem C10_refinement (m deps : Obj) (r : Report)
    (h : lookupField m "dependencies" = some (JVal.obj deps)) :
    updatePackageJson m r = upgradeManifest m r := by
  rw [updatePackageJson_eq_updateLoop m deps r h,
    upgradeManifest_eq_updateLoop r m deps h]

/-- C10 witness: the two functions agree on a concrete manifest that
has a `dependencies` object and an extra field. -/
theorem C10_witness :
    updatePackageJson
        [("name", JVal.str "sample"),
         ("dependencies", JVal.obj [("left-pad", JVal.str "^1.0.0")])]
        [("left-pad", [("latest", JVal.str "1.3.0")])]
      = upgradeManifest
          [("name", JVal.str "sample"),
           ("dependencies", JVal.obj [("left-pad", JVal.str "^1.0.0")])]
          [("left-pad", [("latest", JVal.str "1.3.0")])] :=
  C10_refinement _ [("left-pad", JVal.str "^1.0.0")] _ (by rfl)

-- Sanity checks against the Python semantics (concrete evaluations).
example : pySplitlines "a\nb\n" = ["a", "b"] := by decide
example : pySplitlines "" = [] := by decide
example : pySplitlines "\n" = [""] := by decide
example : searchFileRef "src/app.ts(10,5): error TS2345: bad type" = some "src/app.ts" := by decide
example : searchLineNum "src/app.ts(10,5): error TS2345: bad type" = some 10 := by decide
example : searchFileRef "no paren here" = none := by decide
example : strContains "an error here" "error" = true := by decide
example : strContains "Error: bad" "error" = false := by decide
example :
    upgradeManifest [("dependencies", JVal.obj [("left-pad", JVal.str "^1.0.0")])]
      [("left-pad", [("latest", JVal.str "1.3.0")])]
      = some [("dependencies", JVal.obj [("left-pad", JVal.str "1.3.0")])] := by rfl
example : upgradeManifest [] [] = some [] := by rfl
example : updatePackageJson [] [] = some [("dependencies", JVal.obj [])] := by rfl
